import Mathlib

/-!
Verification of the straia agent session engine.

A shallow embedding of `ai/api/agent/session.py` (the session orchestration
engine of the straia repository) together with theorems checking the
specification's claims about it.

Modelling conventions:
* Python JSON-ish values (the dicts/lists/strings flowing through the agent
  loop) are embedded as the inductive `JVal`.  To keep every function
  kernel-reducible, arrays and objects are represented as cons-chains inside
  the single inductive (`arrCons`/`objCons`) rather than as nested `List`s.
  Python dicts preserve insertion order, which the cons-chain also does.
* Python strings are `String`; the text processed by the execution sandbox is
  modelled as `List Char` where character-level operations (strip, slicing)
  matter.
* `uuid.uuid5(NAMESPACE_DNS, seed)` is a pure deterministic function of its
  seed; it is modelled by `stable_uuid`, which renders the seed verbatim.
  Equality of seeds (the only property any claim depends on) is preserved
  exactly; only the SHA-1 digesting is dropped.
* External collaborators (the planning / clarification / repair oracles,
  the schema provider, the Python interpreter invoked via `exec`/`eval`)
  are parameters of the model, per the spec's component boundaries.
-/

namespace Straia

/-- JSON-like values as manipulated by `session.py`.  Arrays and objects are
flattened cons-chains so that every recursion below is plainly structural. -/
inductive JVal where
  | null : JVal
  | boolv : Bool → JVal
  | intv : Int → JVal
  | strv : String → JVal
  | arrNil : JVal
  | arrCons : JVal → JVal → JVal
  | objNil : JVal
  | objCons : String → JVal → JVal → JVal
deriving DecidableEq, Repr

namespace JVal

/-- Build an array value from a `List`. -/
def ofList : List JVal → JVal
  | [] => .arrNil
  | v :: rest => .arrCons v (ofList rest)

/-- Build an object value from a `List` of key/value pairs (insertion order). -/
def ofPairs : List (String × JVal) → JVal
  | [] => .objNil
  | (k, v) :: rest => .objCons k v (ofPairs rest)

/-- `isinstance(v, dict)` -/
def isObj : JVal → Bool
  | .objNil => true
  | .objCons _ _ _ => true
  | _ => false

/-- `isinstance(v, list)` -/
def isArr : JVal → Bool
  | .arrNil => true
  | .arrCons _ _ => true
  | _ => false

/-- First binding of `key` in an object chain (Python dicts have unique keys;
on the values the code builds, the first binding is the binding). -/
def lookup : JVal → String → Option JVal
  | .objCons k v rest, key => if k = key then some v else lookup rest key
  | _, _ => none

/-- Python `d.get(key, default)`: the default is used only when the key is
absent (a present-but-`None` value is returned as such). -/
def getD (o : JVal) (key : String) (d : JVal) : JVal := (o.lookup key).getD d

/-- Python `d.get(key)` (default `None`). -/
def get (o : JVal) (key : String) : JVal := o.getD key .null

/-- Python `key in d`. -/
def hasKey (o : JVal) (key : String) : Bool := (o.lookup key).isSome

/-- Python truthiness of a JSON-ish value. -/
def truthy : JVal → Bool
  | .null => false
  | .boolv b => b
  | .intv n => n != 0
  | .strv s => s ≠ ""
  | .arrNil => false
  | .arrCons _ _ => true
  | .objNil => false
  | .objCons _ _ _ => true

end JVal

/-- Python `a or b` on JSON-ish values. -/
def pyOr (a b : JVal) : JVal := if a.truthy then a else b

/-- `d[key] = v` on a Python dict: overwrite in place (keeping the key's
position) when present, append otherwise. -/
def objSet : JVal → String → JVal → JVal
  | .objCons k v rest, key, newV =>
      if k = key then .objCons key newV rest else .objCons k v (objSet rest key newV)
  | .objNil, key, newV => .objCons key newV .objNil
  | other, _, _ => other

end Straia

namespace Straia

/-! ## JSON canonical serialization (`json.dumps(..., sort_keys=True)`)

`dumpsCore` returns, in one structural pass: the rendered text of the value,
the rendered elements of an array chain, and the rendered key/value pairs of
an object chain (the latter two are used by the enclosing constructor). -/

/-- One escaped character of a JSON string literal.  The source relies on
`json.dumps`; escapes beyond quote/backslash/newline are elided here (no
value exercised by the claims contains them). -/
def escChar (c : Char) : String :=
  if c = '"' then "\\\"" else if c = '\\' then "\\\\" else if c = '\n' then "\\n"
  else String.singleton c

/-- JSON string literal. -/
def jquote (s : String) : String := "\"" ++ String.join (s.toList.map escChar) ++ "\""

/-- Code-point lexicographic order on character lists (Python compares
strings by unicode code point). -/
def charsLt : List Char → List Char → Bool
  | [], [] => false
  | [], _ :: _ => true
  | _ :: _, [] => false
  | a :: as, b :: bs =>
      if a.toNat < b.toNat then true
      else if b.toNat < a.toNat then false
      else charsLt as bs

/-- Code-point lexicographic order on strings. -/
def strLt (a b : String) : Bool := charsLt a.toList b.toList

/-- Stable insertion of a rendered pair into a key-sorted list (models the
stable `sort_keys=True`; all objects built by the code have unique keys). -/
def insertPair (p : String × String) : List (String × String) → List (String × String)
  | [] => [p]
  | q :: rest => if strLt p.1 q.1 then p :: q :: rest else q :: insertPair p rest

/-- Key-sort of rendered pairs. -/
def sortPairs : List (String × String) → List (String × String)
  | [] => []
  | p :: rest => insertPair p (sortPairs rest)

/-- Core of `json.dumps(v, sort_keys=True)` (default separators `", "` and
`": "`).  Components: rendered value, rendered array elements, rendered
object pairs. -/
def dumpsCore : JVal → String × List String × List (String × String)
  | .null => ("null", [], [])
  | .boolv true => ("true", [], [])
  | .boolv false => ("false", [], [])
  | .intv n => (toString n, [], [])
  | .strv s => (jquote s, [], [])
  | .arrNil => ("[]", [], [])
  | .arrCons h t =>
      let hs := (dumpsCore h).1
      let ts := (dumpsCore t).2.1
      let elems := hs :: ts
      ("[" ++ String.intercalate ", " elems ++ "]", elems, [])
  | .objNil => ("\x7b\x7d", [], [])
  | .objCons k v rest =>
      let vs := (dumpsCore v).1
      let rp := (dumpsCore rest).2.2
      let pairs := (k, vs) :: rp
      let body := (sortPairs pairs).map (fun p => jquote p.1 ++ ": " ++ p.2)
      ("\x7b" ++ String.intercalate ", " body ++ "\x7d", [], pairs)

/-- `json.dumps(v, sort_keys=True)`. -/
def dumps (v : JVal) : String := (dumpsCore v).1

/-! ## Python `str()` rendering (used for `str(group_by)` and for feeding
series ids into the axis-id seed). -/

/-- Python `str(v)` for the scalar values the normalizer actually passes to
`_stable_uuid`.  Containers fall back to the JSON rendering (Python would
render their `repr`; no claim exercises a container here). -/
def pyStr : JVal → String
  | .null => "None"
  | .boolv true => "True"
  | .boolv false => "False"
  | .intv n => toString n
  | .strv s => s
  | v => dumps v

end Straia

namespace Straia

/-! ## `normalize_yaxes` (session.py lines 310–394) -/

/-- Model of `_stable_uuid(*parts) = str(uuid.uuid5(uuid.NAMESPACE_DNS,
"|".join(parts)))`.  The seed is kept verbatim: uuid5 is a deterministic
injective-modulo-SHA1 function of the seed, and the claims depend only on
seed equality. -/
def stable_uuid (parts : List String) : String :=
  "uuid5(" ++ String.intercalate "|" parts ++ ")"

/-- `ensure_series_fields(s)` from `normalize_yaxes`.  Field aliasing
(`column`/`field`), the `"sum"` default, `groupBy` falsy-to-`None`
normalization, and the preserve-or-derive id rule, with the output dict's
insertion order exactly as in the source. -/
def ensure_series_fields (s : JVal) : JVal :=
  let column := pyOr (s.get "column") (s.get "field")
  let aggregate_fn := s.getD "aggregateFunction" (.strv "sum")
  let group_by := pyOr (s.getD "groupBy" (.strv "")) (.strv "")
  let sid := pyOr (s.get "id")
    (.strv (stable_uuid [pyStr (pyOr column (.strv "")), pyStr aggregate_fn, pyStr group_by]))
  JVal.ofPairs
    [("id", sid), ("column", column), ("aggregateFunction", aggregate_fn),
     ("groupBy", if group_by.truthy then group_by else .null),
     ("chartType", s.getD "chartType" .null), ("name", s.getD "name" .null),
     ("color", s.getD "color" .null), ("groups", s.getD "groups" .null),
     ("dateFormat", s.getD "dateFormat" .null), ("numberFormat", s.getD "numberFormat" .null)]

/-- `ensure_series_fields` mapped over an array chain. -/
def mapEnsure : JVal → JVal
  | .arrCons s rest => .arrCons (ensure_series_fields s) (mapEnsure rest)
  | _ => .arrNil

/-- The `s["id"]` strings fed into the axis-id seed (`*(s["id"] for s in
series)`); ids are present on every `ensure_series_fields` output. -/
def seriesIds : JVal → List String
  | .arrCons s rest => pyStr (s.get "id") :: seriesIds rest
  | _ => []

/-- Object chain restricted to keys other than `series`, `id`, `name`
(the `{k: v for k, v in y.items() if ...}` comprehension; order kept). -/
def dropAxisKeys : JVal → JVal
  | .objCons k v rest =>
      if k = "series" ∨ k = "id" ∨ k = "name" then dropAxisKeys rest
      else .objCons k v (dropAxisKeys rest)
  | _ => .objNil

/-- Append of two object chains (models building one dict from two groups of
insertions). -/
def objAppend : JVal → JVal → JVal
  | .objCons k v rest, tail => .objCons k v (objAppend rest tail)
  | _, tail => tail

/-- The shorthand branches of `normalize_yaxes` (bare string, series-like
dict, list of series-like dicts, anything else). -/
def shorthandAxis (y : JVal) : JVal :=
  let seriesList :=
    match y with
    | .strv c => JVal.arrCons (ensure_series_fields (JVal.ofPairs [("column", .strv c)])) .arrNil
    | .objNil => if y.hasKey "column" ∨ y.hasKey "field" then .arrCons (ensure_series_fields y) .arrNil else .arrNil
    | .objCons _ _ _ => if y.hasKey "column" ∨ y.hasKey "field" then .arrCons (ensure_series_fields y) .arrNil else .arrNil
    | .arrNil => mapEnsure y
    | .arrCons _ _ => mapEnsure y
    | _ => .arrNil
  let axisId :=
    match seriesList with
    | .arrCons _ _ => stable_uuid (seriesIds seriesList)
    | _ => stable_uuid ["empty"]
  JVal.ofPairs [("id", .strv axisId), ("name", .null), ("series", seriesList)]

/-- One `y` of `normalize_yaxes`: the fully-formed-axis branch (a dict with a
list under `series`) or the shorthand branches. -/
def normalize_axis (y : JVal) : JVal :=
  match y.lookup "series" with
  | some series =>
      if series.isArr then
        let ySeries := mapEnsure series
        let axisId := pyOr (y.get "id") (.strv (stable_uuid (seriesIds ySeries)))
        objAppend (dropAxisKeys y)
          (JVal.ofPairs [("id", axisId), ("name", y.getD "name" .null), ("series", ySeries)])
      else shorthandAxis y
  | none => shorthandAxis y

/-- `normalize_yaxes(yaxes)` over an array chain. -/
def normalize_yaxes : JVal → JVal
  | .arrCons y rest => .arrCons (normalize_axis y) (normalize_yaxes rest)
  | _ => .arrNil

/-- The in-place `ev["input"]["yAxes"] = normalize_yaxes(...)` is only
reached when `yAxes` is present; when it is a list we map, otherwise Python
would iterate the value's elements (a path no claim exercises — the oracle
contract sends a list). -/
def normalize_yaxes_val (v : JVal) : JVal :=
  if v.isArr then normalize_yaxes v else v

end Straia

namespace Straia

/-! ## Deduplication signature (session.py lines 414–424) -/

/-- `_strip_ids(obj)`: recursively drop the volatile keys `id`, `name`,
`color`. -/
def strip_ids : JVal → JVal
  | .objCons k v rest =>
      if k = "id" ∨ k = "name" ∨ k = "color" then strip_ids rest
      else .objCons k (strip_ids v) (strip_ids rest)
  | .arrCons v rest => .arrCons (strip_ids v) (strip_ids rest)
  | v => v

/-- `signature = json.dumps(_strip_ids(ev["input"]), sort_keys=True)`. -/
def vizSignature (input : JVal) : String := dumps (strip_ids input)

/-- The normalization applied to a visualization block's `input` before the
signature is computed: `ev["input"]["yAxes"] = normalize_yaxes(...)`. -/
def normalizeInput (input : JVal) : JVal :=
  objSet input "yAxes" (normalize_yaxes_val (input.get "yAxes"))

end Straia

namespace Straia

/-! ## Semantic content of a series / axis (for claim C1)

The spec's notion of "structurally equal" visualization inputs: same column,
aggregate function and group-by for each series, regardless of the shorthand
form each axis was submitted in. -/

/-- The semantic content of one series. -/
structure SeriesContent where
  column : String
  agg : String
  groupBy : Option String
deriving DecidableEq, Repr

/-- The semantic content of one axis: its series, in order. -/
abbrev AxisContent := List SeriesContent

/-- The group-by string that enters the stable-id seed (`str(group_by)` after
the falsy-to-`""` normalization). -/
def gbSeed (c : SeriesContent) : String := c.groupBy.getD ""

/-- The deterministic series id: `_stable_uuid(column, aggregateFunction,
str(groupBy))`. -/
def canonSid (c : SeriesContent) : String := stable_uuid [c.column, c.agg, gbSeed c]

/-- The `groupBy` field of the normalized series (`None` when empty). -/
def canonGb (c : SeriesContent) : JVal :=
  match c.groupBy with
  | some g => .strv g
  | none => .null

/-- The canonical normalized series produced by `ensure_series_fields` for
content `c` (no caller-supplied id, no cosmetic fields). -/
def canonSeries (c : SeriesContent) : JVal :=
  JVal.ofPairs
    [("id", .strv (canonSid c)), ("column", .strv c.column),
     ("aggregateFunction", .strv c.agg), ("groupBy", canonGb c),
     ("chartType", .null), ("name", .null), ("color", .null), ("groups", .null),
     ("dateFormat", .null), ("numberFormat", .null)]

/-- The canonical normalized axis for content `a`: id derived from the ordered
series ids. -/
def canonAxis (a : AxisContent) : JVal :=
  JVal.ofPairs
    [("id", .strv (stable_uuid (a.map canonSid))), ("name", .null),
     ("series", JVal.ofList (a.map canonSeries))]

/-- Series-like dict using the `column` key. -/
def encSeries (c : SeriesContent) : JVal :=
  JVal.ofPairs
    ([("column", .strv c.column), ("aggregateFunction", .strv c.agg)] ++
      (match c.groupBy with | some g => [("groupBy", JVal.strv g)] | none => []))

/-- Series-like dict using the `field` alias. -/
def encSeriesField (c : SeriesContent) : JVal :=
  JVal.ofPairs
    ([("field", .strv c.column), ("aggregateFunction", .strv c.agg)] ++
      (match c.groupBy with | some g => [("groupBy", JVal.strv g)] | none => []))

/-- The accepted shorthand forms for one element of `yAxes`. -/
inductive YForm where
  | bareStr : YForm
  | seriesObj : YForm
  | seriesObjField : YForm
  | seriesList : YForm
  | fullAxis : YForm
deriving DecidableEq, Repr

/-- Encode axis content `a` in form `f`. -/
def encodeAxis : YForm → AxisContent → JVal
  | .bareStr, [c] => .strv c.column
  | .bareStr, _ => .null
  | .seriesObj, [c] => encSeries c
  | .seriesObj, _ => .null
  | .seriesObjField, [c] => encSeriesField c
  | .seriesObjField, _ => .null
  | .seriesList, a => JVal.ofList (a.map encSeries)
  | .fullAxis, a => JVal.ofPairs [("series", JVal.ofList (a.map encSeries))]

/-- Which contents a form can express: a bare string fixes the `"sum"`
default and no group-by; the single-object forms carry one series; every
form needs at least one series to have content to agree on. -/
def Admissible : YForm → AxisContent → Prop
  | .bareStr, a => ∃ c, a = [c] ∧ c.agg = "sum" ∧ c.groupBy = none
  | .seriesObj, a => a.length = 1
  | .seriesObjField, a => a.length = 1
  | .seriesList, a => a ≠ []
  | .fullAxis, a => a ≠ []

/-- Non-degenerate series content: a non-empty column name (Python truthiness
drives the `column or field` aliasing) and no empty-string group-by (empty is
the same as absent). -/
def GoodSeries (c : SeriesContent) : Prop := c.column ≠ "" ∧ c.groupBy ≠ some ""

instance : DecidablePred GoodSeries := fun c => by
  unfold GoodSeries; infer_instance


end Straia

namespace Straia

/-! ## Volatile-field equivalence (for claim C2) -/

/-- Two values that differ at most in the *values* stored under the volatile
keys `id`, `name`, `color` (at any depth). -/
inductive EqVol : JVal → JVal → Prop where
  | refl (v : JVal) : EqVol v v
  | arrCons {h1 h2 t1 t2 : JVal} : EqVol h1 h2 → EqVol t1 t2 →
      EqVol (.arrCons h1 t1) (.arrCons h2 t2)
  | objConsVol (k : String) (v1 v2 : JVal) {r1 r2 : JVal}
      (hk : k = "id" ∨ k = "name" ∨ k = "color") :
      EqVol r1 r2 → EqVol (.objCons k v1 r1) (.objCons k v2 r2)
  | objCons (k : String) {v1 v2 r1 r2 : JVal} : EqVol v1 v2 → EqVol r1 r2 →
      EqVol (.objCons k v1 r1) (.objCons k v2 r2)

/-! ## Python text helpers (sandbox output processing) -/

/-- Characters removed by Python `str.strip()`. -/
def pyWhitespace (c : Char) : Bool :=
  c = ' ' ∨ c = '\t' ∨ c = '\n' ∨ c = '\r' ∨ c = '\x0b' ∨ c = '\x0c'

/-- Python `text.strip()` on a character list. -/
def pyStrip (l : List Char) : List Char :=
  ((l.dropWhile pyWhitespace).reverse.dropWhile pyWhitespace).reverse

/-- Python `s.strip()` on a `String`. -/
def pyStripS (s : String) : String := ⟨pyStrip s.toList⟩

/-- `s.splitlines()[0]` for non-empty `s` (the code only takes the first
line; `\n` and `\r` cover the newlines the snippets contain). -/
def firstLineOf (s : String) : String :=
  ⟨s.toList.takeWhile (fun c => ¬ (c = '\n' ∨ c = '\r'))⟩

/-- Python slice `s[:n]`. -/
def takeS (n : Nat) (s : String) : String := ⟨s.toList.take n⟩

/-- Output post-processing of `_execute_python_block` (session.py lines
170–175): strip, then truncate to 5000 characters with an ellipsis marker;
the `output` key is set only when the stripped text is non-empty. -/
def processOut (out : List Char) : Option (List Char) :=
  let s := pyStrip out
  if s.isEmpty then none
  else if s.length > 5000 then some (s.take 5000 ++ ['…']) else some s

/-! ## Events

One emitted event of the stream, with the fields `session.py` reads or
writes.  An `Option` field models presence/absence of the key (for `summary`
a present-but-`None` value and an absent key behave identically in the code
paths modelled). -/

structure Ev where
  event : String
  message : Option String := none
  clarifications : Option JVal := none
  action : Option String := none
  blockType : Option String := none
  content : Option String := none
  input : Option JVal := none
  blockId : Option String := none
  summary : Option String := none
  reasoning : Option JVal := none
  sql : Option JVal := none
  chart : Option JVal := none
  tableInfo : Option String := none
  status : Option String := none
  output : Option (List Char) := none
  error : Option (List Char) := none
deriving DecidableEq, Repr

/-! ## ExecutionSandbox (`_execute_python_block`, session.py lines 122–196)

The Python interpreter is external: a snippet's behaviour is a parameter.
`runBody` is the effect (under `exec`, output captured) of every statement
except a trailing bare expression; `lastExpr` is present exactly when the
snippet's final statement is a bare expression, and gives that expression's
evaluation effect.  Both act on the full sandbox state so that executed code
may itself change the working directory. -/

/-- The derived dataframe schema (`self._derived_schema`). -/
abbrev Schema := List (String × List String)

/-- Sandbox state: process working directory, the persistent per-session
namespace (`self._py_globals`), and the derived schema. -/
structure SBState (NS : Type) where
  cwd : String
  ns : NS
  derivedSchema : Schema
deriving DecidableEq, Repr

/-- Outcome of running statements under `exec`: final state, captured stdout
and stderr; or a raise, additionally carrying the traceback text. -/
inductive StmtsRun (NS : Type) where
  | ok : SBState NS → List Char → List Char → StmtsRun NS
  | raised : SBState NS → List Char → List Char → List Char → StmtsRun NS
deriving DecidableEq, Repr

/-- Outcome of evaluating one expression: final state, value (`None` is
`none`), stdout and stderr written while evaluating; or a raise. -/
inductive ExprRun (NS V : Type) where
  | ok : SBState NS → Option V → List Char → List Char → ExprRun NS V
  | raised : SBState NS → List Char → List Char → List Char → ExprRun NS V
deriving DecidableEq, Repr

/-- Abstract semantics of one Python snippet. -/
structure PySnippet (NS V : Type) where
  runBody : SBState NS → StmtsRun NS
  lastExpr : Option (SBState NS → ExprRun NS V)

/-- `exec(code, self._py_globals)` with stdout/stderr redirected into
buffers: run the body, then (when the final statement is a bare expression)
evaluate it, discarding its value but capturing its output. -/
def execSnippet {NS V : Type} (sn : PySnippet NS V) (s : SBState NS) : StmtsRun NS :=
  match sn.runBody s with
  | .raised s1 o e tb => .raised s1 o e tb
  | .ok s1 o1 e1 =>
      match sn.lastExpr with
      | none => .ok s1 o1 e1
      | some f =>
          match f s1 with
          | .ok s2 _ o2 e2 => .ok s2 (o1 ++ o2) (e1 ++ e2)
          | .raised s2 o2 e2 tb => .raised s2 (o1 ++ o2) (e1 ++ e2) tb

/-- State in which the snippet runs: `os.chdir(self._data_base_dir)` when a
data directory was discovered, and the matplotlib-stub mutation of the
namespace (`self._py_globals['plt'] = plt`, a no-op when matplotlib is
unavailable — abstracted as `plt`). -/
def sbPrepared {NS : Type} (dataBaseDir : Option String) (plt : NS → NS)
    (s0 : SBState NS) : SBState NS :=
  let s1 := match dataBaseDir with
    | some d => {s0 with cwd := d}
    | none => s0
  {s1 with ns := plt s1.ns}

/-- `_execute_python_block(code)`.  On success the trailing bare expression
(if any) is evaluated a *second* time via `eval`, outside the output
redirection, and the `repr` of its non-`None` value is appended; the
combined output is stripped/truncated by `processOut`.  On a raise, `error`
is the captured stderr plus the traceback.  The `finally:` block restores
the working directory on every exit path, and the schema rescan
(`scan`, the pandas-dataframe inspection) runs after either outcome. -/
def executePythonBlock {NS V : Type} (dataBaseDir : Option String)
    (snips : String → PySnippet NS V) (plt : NS → NS) (valRepr : V → List Char)
    (scan : NS → Schema → Schema) (code : String) (s0 : SBState NS) :
    SBState NS × Ev :=
  let cwdBackup := s0.cwd
  let sn := snips code
  match execSnippet sn (sbPrepared dataBaseDir plt s0) with
  | .ok s1 out _err =>
      let secondEval : SBState NS × Option V :=
        match sn.lastExpr with
        | none => (s1, none)
        | some f =>
            match f s1 with
            | .ok s2 v _ _ => (s2, v)
            | .raised s2 _ _ _ => (s2, none)
      let s2 := secondEval.1
      let outFull :=
        match secondEval.2 with
        | some v => out ++ (if out.isEmpty then [] else ['\n']) ++ valRepr v
        | none => out
      let sFin : SBState NS :=
        { cwd := cwdBackup, ns := s2.ns, derivedSchema := scan s2.ns s2.derivedSchema }
      (sFin, { event := "execution_result", blockType := some "python",
               status := some "ok", output := processOut outFull })
  | .raised s1 _out err tb =>
      let sFin : SBState NS :=
        { cwd := cwdBackup, ns := s1.ns, derivedSchema := scan s1.ns s1.derivedSchema }
      (sFin, { event := "execution_result", blockType := some "python",
               status := some "error", error := some (err ++ '\n' :: tb) })

/-! ## ClarificationGate (session.py lines 678–707) -/

/-- Ordered dict update: overwrite in place, append when absent. -/
def dictSet : List (String × String) → String → String → List (String × String)
  | [], k, v => [(k, v)]
  | (k1, v1) :: rest, k, v =>
      if k1 = k then (k, v) :: rest else (k1, v1) :: dictSet rest k v

/-- `term in answers`. -/
def dictHas (d : List (String × String)) (k : String) : Bool :=
  d.any (fun p => p.1 = k)

/-- `answers.get(term)`. -/
def dictGet (d : List (String × String)) (k : String) : Option String :=
  (d.find? (fun p => p.1 = k)).map (fun p => p.2)

/-- Clarification gate state: the answers dict, the expected terms, whether a
wait (future) is outstanding, and its result once set. -/
structure ClarGate where
  answers : List (String × String)
  expectedTerms : List String
  futurePending : Bool
  futureResult : Option (List (String × String))
deriving DecidableEq, Repr

/-- `_wait_for_clarification`: create a fresh, unresolved future. -/
def wait_for_clarification (g : ClarGate) : ClarGate :=
  {g with futurePending := true, futureResult := none}

/-- `submit_clarification(term, answer)`: record the answer unconditionally,
then resolve the outstanding future only when every expected term has an
answer.  (The code resolves with the answers dict itself; the model snapshots
it at resolution time.) -/
def submit_clarification (g : ClarGate) (term answer : String) : ClarGate :=
  let answers := dictSet g.answers term answer
  let g1 := {g with answers := answers}
  if g1.futurePending && g1.futureResult.isNone &&
      g1.expectedTerms.all (fun t => dictHas answers t) then
    {g1 with futureResult := some answers}
  else g1

end Straia

namespace Straia

/-! ## SessionController (`astream`, session.py lines 198–675)

External collaborators are parameters: the next-step oracle (per planning
turn), the uuid4 supply for fresh block ids, the snippet semantics, the
matplotlib stub, `repr`, the schema rescan, and the code-repair oracle's
edit stream.  The oracle is indexed by the turn number; for the deterministic
loop this covers every context-dependent oracle behaviour. -/

/-- Structured notebook-block history entries (`self._notebook_blocks`). -/
inductive NBBlock where
  | python : String → NBBlock
  | vizV2 : JVal → JVal → JVal → JVal → JVal → NBBlock
deriving DecidableEq, Repr

/-- Recording of a freshly planned `create_block` action into
`self._notebook_blocks` (session.py lines 281–295); note this happens
*before* the done-check, the id assignment, normalization and dedup. -/
def recordBlock (ev : Ev) (blocks : List NBBlock) : List NBBlock :=
  if ev.event = "action" ∧ ev.action = some "create_block" then
    if ev.blockType = some "python" then
      let first := match ev.content with
        | some c => if c = "" then "" else firstLineOf c
        | none => ""
      blocks ++ [.python first]
    else if ev.blockType = some "visualizationV2" then
      let inp := match ev.input with
        | some v => if v.truthy then v else .objNil
        | none => .objNil
      blocks ++ [.vizV2 (inp.get "chartType") (inp.get "dataframeName")
        (inp.get "xAxis") (inp.get "yAxes") (inp.get "title")]
    else blocks
  else blocks

/-- `if table_info and ev is an action and "table_info" not in ev`. -/
def ensureTableInfo (tbl : String) (ev : Ev) : Ev :=
  if tbl ≠ "" ∧ ev.event = "action" ∧ ev.tableInfo = none then
    {ev with tableInfo := some tbl}
  else ev

/-- `if "blockId" not in ev: ev["blockId"] = str(uuid.uuid4())` for
create_block actions; the uuid4 draw is the supplied fresh id. -/
def ensureBlockId (fid : String) (ev : Ev) : Ev :=
  if ev.event = "action" ∧ ev.action = some "create_block" ∧ ev.blockId = none then
    {ev with blockId := some fid}
  else ev

/-- Guard of the visualization normalization/dedup section: a
`visualizationV2` create_block whose `input` is a dict containing `yAxes`. -/
def vizCondition (ev : Ev) : Bool :=
  ev.event = "action" && ev.action == some "create_block" &&
    ev.blockType == some "visualizationV2" &&
    (match ev.input with
     | some inp => inp.isObj && inp.hasKey "yAxes"
     | none => false)

/-- How one loop iteration ends: fall through / `continue` to the next
iteration, `break` (oracle said done), or an uncaught exception killing the
generator (`code.strip().splitlines()[0]` raising `IndexError` on
whitespace-only python content). -/
inductive StepExit where
  | cont : StepExit
  | brk : StepExit
  | aborted : StepExit
deriving DecidableEq, Repr

/-- Per-session loop state. -/
structure SessState (NS : Type) where
  notebookCells : List String
  contextLines : List String
  notebookBlocks : List NBBlock
  seenViz : List String
  sandbox : SBState NS
deriving DecidableEq, Repr

/-- External collaborators and request data of one session run. -/
structure SessionParams (NS V : Type) where
  question : String
  tableInfo : String
  clarifications : JVal
  dataBaseDir : Option String
  oracle : Nat → Ev
  freshId : Nat → String
  snippets : String → PySnippet NS V
  pltStub : NS → NS
  valRepr : V → List Char
  scanSchema : NS → Schema → Schema
  repairEdits : String → List Char → List (Option String)

/-- The single auto-repair event emitted after a failing python block: a new
create_block carrying the replacement code (no blockId). -/
def repairEv (src : String) : Ev :=
  {event := "action", action := some "create_block", blockType := some "python",
   content := some src}

/-- First streamed repair edit whose `source` is a string (the loop breaks
after emitting one fix). -/
def firstSome : List (Option String) → Option String
  | [] => none
  | some s :: _ => some s
  | none :: rest => firstSome rest

/-- The `yield ev` point and everything after it in one loop iteration:
python execution with feedback and at-most-one auto-repair, the double
insight emission, and the context/notebook bookkeeping for other blocks.
(The axis sanity-check between dedup and `yield ev`, session.py lines
443–588, is statically dead: `ALL_CHARTS_CHECK = []` disables it.) -/
def postYield {NS V : Type} (P : SessionParams NS V) (ev : Ev) (st : SessState NS) :
    List Ev × SessState NS × StepExit :=
  if ev.event = "action" ∧ ev.action = some "create_block" ∧ ev.blockType = some "python" then
    let code := ev.content.getD ""
    let st1 := {st with notebookCells := st.notebookCells ++ [code]}
    let er := executePythonBlock P.dataBaseDir P.snippets P.pltStub P.valRepr
      P.scanSchema code st1.sandbox
    let feedback := {er.2 with blockId := ev.blockId}
    let st2 := {st1 with sandbox := er.1}
    if pyStripS code = "" then
      ([ev, feedback], st2, .aborted)
    else
      let snippet := takeS 120 (firstLineOf (pyStripS code))
      if feedback.status = some "error" then
        let err := feedback.error.getD []
        let st3 := {st2 with contextLines := st2.contextLines ++
          ["ERROR: " ++ String.mk (err.take 120) ++ " running " ++ snippet]}
        let fixEvs : List Ev :=
          match firstSome (P.repairEdits code err) with
          | some src => [repairEv src]
          | none => []
        ([ev, feedback] ++ fixEvs, st3, .cont)
      else if (feedback.output.getD []).isEmpty = false then
        let o := feedback.output.getD []
        ([ev, feedback], {st2 with contextLines := st2.contextLines ++
          ["OUTPUT: " ++ String.mk (o.take 120) ++ " from " ++ snippet]}, .cont)
      else
        let summ := match ev.summary with
          | some s => if s = "" then "executed" else s
          | none => "executed"
        ([ev, feedback],
          {st2 with contextLines := st2.contextLines ++ [summ ++ ": " ++ snippet]}, .cont)
  else if ev.event = "insight" then
    let insightOut : Ev :=
      {event := "insight", summary := ev.summary, reasoning := ev.reasoning,
       sql := ev.sql, chart := ev.chart}
    ([ev, insightOut],
      {st with contextLines := st.contextLines ++ [ev.summary.getD "insight"]}, .cont)
  else if ev.event = "action" ∧ ev.action = some "create_block" then
    let st1 := {st with notebookCells := st.notebookCells ++ [ev.content.getD ""]}
    let snip := match ev.summary with
      | some s => if s = "" then ev.content.getD "" else s
      | none => ev.content.getD ""
    let st2 := if snip = "" then st1
      else {st1 with contextLines := st1.contextLines ++ [takeS 120 snip]}
    ([ev], st2, .cont)
  else
    ([ev], st, .cont)

/-- The terminal event of a `done` oracle response. -/
def doneEv : Ev := {event := "session_completed", message := some "Agent session completed."}

/-- One iteration of the FSM loop (session.py lines 249–672): oracle call,
history recording, done-check, table-info and block-id patching, and — for
visualization blocks — in-place yAxes normalization followed by signature
deduplication (a seen signature suppresses the event and `continue`s). -/
def runStep {NS V : Type} (P : SessionParams NS V) (i : Nat) (st : SessState NS) :
    List Ev × SessState NS × StepExit :=
  let ev0 := P.oracle i
  let st1 := {st with notebookBlocks := recordBlock ev0 st.notebookBlocks}
  if ev0.event = "done" then ([doneEv], st1, .brk)
  else
    let ev2 := ensureBlockId (P.freshId i) (ensureTableInfo P.tableInfo ev0)
    if vizCondition ev2 then
      let inp2 := normalizeInput (ev2.input.getD .null)
      let ev3 := {ev2 with input := some inp2}
      let sig := vizSignature inp2
      if st1.seenViz.contains sig then
        ([], st1, .cont)
      else
        postYield P ev3 {st1 with seenViz := sig :: st1.seenViz}
    else
      postYield P ev2 st1

/-- How the whole loop ended: `break` on done, step budget exhausted, or the
generator died on an exception. -/
inductive LoopExit where
  | finished : LoopExit
  | stopped : LoopExit
  | crashed : LoopExit
deriving DecidableEq, Repr

/-- `for step_idx in range(...)` with `break`/exception propagation;
returns emitted events, final state, number of iterations run, and how the
loop ended. -/
def runLoop {NS V : Type} (P : SessionParams NS V) :
    Nat → Nat → SessState NS → List Ev × SessState NS × Nat × LoopExit
  | _, 0, st => ([], st, 0, .stopped)
  | i, fuel + 1, st =>
      match runStep P i st with
      | (evs, st1, .brk) => (evs, st1, 1, .finished)
      | (evs, st1, .aborted) => (evs, st1, 1, .crashed)
      | (evs, st1, .cont) =>
          let r := runLoop P (i + 1) fuel st1
          (evs ++ r.1, r.2.1, r.2.2.1 + 1, r.2.2.2)

/-- `MAX_STEPS = 12` (session.py line 247). -/
def MAX_STEPS : Nat := 12

/-- The opening event. -/
def startedEv (question : String) : Ev :=
  {event := "session_started", message := some ("Agent session started: " ++ question)}

/-- The clarification event (emitted before any waiting). -/
def clarificationEv (clar : JVal) : Ev :=
  {event := "clarification", clarifications := some clar}

/-- The for-else terminal event when the step budget runs out. -/
def stoppedEv : Ev :=
  {event := "session_completed", message := some "Stopped after max iterations."}

/-- Fresh per-session state. -/
def initState {NS : Type} (s0 : SBState NS) : SessState NS :=
  {notebookCells := [], contextLines := [], notebookBlocks := [], seenViz := [], sandbox := s0}

/-- The full event stream of `astream` (events in generation order, final
state, loop iterations, exit mode).  The clarification wait between the
`clarification` event and the loop emits nothing and is modelled by
`ClarGate` separately; a stream whose wait never resolves simply never gets
past that point.  File discovery and schema I/O are the `tableInfo` /
`clarifications` / `dataBaseDir` parameters. -/
def astream {NS V : Type} (P : SessionParams NS V) (s0 : SBState NS) :
    List Ev × SessState NS × Nat × LoopExit :=
  let pre := [startedEv P.question, clarificationEv P.clarifications]
  let r := runLoop P 0 MAX_STEPS (initState s0)
  match r.2.2.2 with
  | .stopped => (pre ++ r.1 ++ [stoppedEv], r.2.1, r.2.2.1, .stopped)
  | ex => (pre ++ r.1, r.2.1, r.2.2.1, ex)

end Straia


namespace Straia

/-! ## Concrete collaborators (used by witnesses and counterexamples) -/

/-- The python create_block action of the spec's step-budget experiment. -/
def pyPassEv : Ev :=
  {event := "action", action := some "create_block", blockType := some "python",
   content := some "pass"}

/-- A bare `done` response. -/
def doneOracleEv : Ev := {event := "done"}

/-- A concrete visualization create_block proposal. -/
def vizEvC3 : Ev :=
  {event := "action", action := some "create_block",
   blockType := some "visualizationV2",
   input := some (JVal.ofPairs [("dataframeName", .strv "df"),
     ("chartType", .strv "bar"), ("yAxes", JVal.ofList [.strv "sales"])])}

/-- Oracle proposing the same visualization twice, then done. -/
def dupOracle : Nat → Ev
  | 0 => vizEvC3
  | 1 => vizEvC3
  | _ => doneOracleEv

/-- Snippet semantics that do nothing (empty output, no trailing
expression). -/
def unitSnippet : String → PySnippet Unit Unit :=
  fun _ => ⟨fun s => .ok s [] [], none⟩

/-- Snippet semantics that always raise. -/
def errSnippet : String → PySnippet Unit Unit :=
  fun _ => ⟨fun s => .raised s [] ['E'] ['T'], none⟩

/-- A fresh unit sandbox. -/
def sbUnit : SBState Unit := ⟨"/", (), []⟩

/-- Session parameters around `dupOracle`. -/
def dupParams : SessionParams Unit Unit :=
  { question := "q", tableInfo := "", clarifications := .arrNil, dataBaseDir := none,
    oracle := dupOracle, freshId := fun i => "id-" ++ toString i,
    snippets := unitSnippet, pltStub := id, valRepr := fun _ => [],
    scanSchema := fun _ d => d, repairEdits := fun _ _ => [] }

/-- Session parameters whose oracle always proposes `pass`. -/
def passParams : SessionParams Unit Unit :=
  { question := "q", tableInfo := "", clarifications := .arrNil, dataBaseDir := none,
    oracle := fun _ => pyPassEv, freshId := fun i => "id-" ++ toString i,
    snippets := unitSnippet, pltStub := id, valRepr := fun _ => [],
    scanSchema := fun _ d => d, repairEdits := fun _ _ => [] }

/-- Session parameters whose oracle always proposes failing python and whose
repair oracle streams one fix. -/
def errParams : SessionParams Unit Unit :=
  { question := "q", tableInfo := "", clarifications := .arrNil, dataBaseDir := none,
    oracle := fun _ =>
      {event := "action", action := some "create_block",
       blockType := some "python", content := some "boom()"},
    freshId := fun i => "id-" ++ toString i,
    snippets := errSnippet, pltStub := id, valRepr := fun _ => [],
    scanSchema := fun _ d => d, repairEdits := fun _ _ => [some "fixed()"] }

end Straia


namespace Straia

/-! ## C1 helper lemmas -/

theorem ensure_encSeries (c : SeriesContent) (h : GoodSeries c) :
    ensure_series_fields (encSeries c) = canonSeries c := by
  obtain ⟨hcol, hgb⟩ := h
  cases hc : c.groupBy with
  | none =>
      simp [encSeries, ensure_series_fields, canonSeries, canonSid, canonGb, gbSeed, hc,
        JVal.ofPairs, JVal.get, JVal.getD, JVal.lookup, pyOr, JVal.truthy, pyStr, hcol]
  | some g =>
      have hg : g ≠ "" := by intro h'; exact hgb (by rw [hc, h'])
      simp [encSeries, ensure_series_fields, canonSeries, canonSid, canonGb, gbSeed, hc,
        JVal.ofPairs, JVal.get, JVal.getD, JVal.lookup, pyOr, JVal.truthy, pyStr, hcol, hg]

theorem ensure_encSeriesField (c : SeriesContent) (h : GoodSeries c) :
    ensure_series_fields (encSeriesField c) = canonSeries c := by
  obtain ⟨hcol, hgb⟩ := h
  cases hc : c.groupBy with
  | none =>
      simp [encSeriesField, ensure_series_fields, canonSeries, canonSid, canonGb, gbSeed, hc,
        JVal.ofPairs, JVal.get, JVal.getD, JVal.lookup, pyOr, JVal.truthy, pyStr, hcol]
  | some g =>
      have hg : g ≠ "" := by intro h'; exact hgb (by rw [hc, h'])
      simp [encSeriesField, ensure_series_fields, canonSeries, canonSid, canonGb, gbSeed, hc,
        JVal.ofPairs, JVal.get, JVal.getD, JVal.lookup, pyOr, JVal.truthy, pyStr, hcol, hg]

theorem ensure_bareColumn (col : String) (hcol : col ≠ "") :
    ensure_series_fields (JVal.ofPairs [("column", .strv col)]) =
      canonSeries ⟨col, "sum", none⟩ := by
  simp [ensure_series_fields, canonSeries, canonSid, canonGb, gbSeed,
    JVal.ofPairs, JVal.get, JVal.getD, JVal.lookup, pyOr, JVal.truthy, pyStr, hcol]

end Straia

namespace Straia

theorem mapEnsure_encSeries (a : List SeriesContent) (h : ∀ c ∈ a, GoodSeries c) :
    mapEnsure (JVal.ofList (a.map encSeries)) = JVal.ofList (a.map canonSeries) := by
  induction a with
  | nil => simp [JVal.ofList, mapEnsure]
  | cons c rest ih =>
      simp only [List.map_cons, JVal.ofList, mapEnsure]
      rw [ensure_encSeries c (h c (by simp)), ih (fun x hx => h x (by simp [hx]))]

theorem seriesIds_canon (a : List SeriesContent) :
    seriesIds (JVal.ofList (a.map canonSeries)) = a.map canonSid := by
  induction a with
  | nil => simp [JVal.ofList, seriesIds]
  | cons c rest ih =>
      simp only [List.map_cons, JVal.ofList, seriesIds]
      rw [ih]
      simp [canonSeries, JVal.ofPairs, JVal.get, JVal.getD, JVal.lookup, pyStr]

theorem shorthandAxis_arrCons (v t : JVal) :
    shorthandAxis (.arrCons v t) =
      JVal.ofPairs [("id", .strv (stable_uuid (seriesIds (mapEnsure (.arrCons v t))))),
        ("name", .null), ("series", mapEnsure (.arrCons v t))] := rfl

/-- Every form expressing admissible, non-degenerate content normalizes to
the canonical axis. -/
theorem normalize_axis_encode (f : YForm) (a : AxisContent)
    (hadm : Admissible f a) (hgood : ∀ c ∈ a, GoodSeries c) :
    normalize_axis (encodeAxis f a) = canonAxis a := by
  cases f with
  | bareStr =>
      obtain ⟨c, rfl, hagg, hgb⟩ := hadm
      have hc := hgood c (by simp)
      simp only [encodeAxis, normalize_axis, JVal.lookup, shorthandAxis]
      rw [ensure_bareColumn c.column hc.1]
      have : (⟨c.column, "sum", none⟩ : SeriesContent) = c := by
        cases c; simp_all
      rw [this]
      simp [canonAxis, seriesIds, canonSeries, JVal.ofPairs, JVal.ofList,
        JVal.get, JVal.getD, JVal.lookup, pyStr]
  | seriesObj =>
      match a, hadm with
      | [c], _ =>
        have hc := hgood c (by simp)
        have hser : (encSeries c).lookup "series" = none := by
          cases hgb : c.groupBy <;> simp [encSeries, JVal.ofPairs, JVal.lookup, hgb]
        have hkey : (encSeries c).hasKey "column" = true := by
          cases hgb : c.groupBy <;>
            simp [encSeries, JVal.ofPairs, JVal.lookup, JVal.hasKey, hgb]
        have hshape : encSeries c = .objCons "column" (.strv c.column) (JVal.ofPairs
            ([("aggregateFunction", .strv c.agg)] ++
              (match c.groupBy with | some g => [("groupBy", JVal.strv g)] | none => []))) := by
          simp [encSeries, JVal.ofPairs]
        simp only [encodeAxis, normalize_axis, hser]
        rw [hshape]
        simp only [shorthandAxis]
        rw [← hshape, ensure_encSeries c hc]
        simp [hkey, canonAxis, seriesIds, canonSeries, JVal.ofPairs, JVal.ofList,
          JVal.get, JVal.getD, JVal.lookup, pyStr]
  | seriesObjField =>
      match a, hadm with
      | [c], _ =>
        have hc := hgood c (by simp)
        have hser : (encSeriesField c).lookup "series" = none := by
          cases hgb : c.groupBy <;> simp [encSeriesField, JVal.ofPairs, JVal.lookup, hgb]
        have hkey : (encSeriesField c).hasKey "field" = true := by
          cases hgb : c.groupBy <;>
            simp [encSeriesField, JVal.ofPairs, JVal.lookup, JVal.hasKey, hgb]
        have hshape : encSeriesField c = .objCons "field" (.strv c.column) (JVal.ofPairs
            ([("aggregateFunction", .strv c.agg)] ++
              (match c.groupBy with | some g => [("groupBy", JVal.strv g)] | none => []))) := by
          simp [encSeriesField, JVal.ofPairs]
        simp only [encodeAxis, normalize_axis, hser]
        rw [hshape]
        simp only [shorthandAxis]
        rw [← hshape, ensure_encSeriesField c hc]
        simp [hkey, canonAxis, seriesIds, canonSeries, JVal.ofPairs, JVal.ofList,
          JVal.get, JVal.getD, JVal.lookup, pyStr]
  | seriesList =>
      obtain ⟨c, rest, rfl⟩ : ∃ c rest, a = c :: rest := by
        cases a with
        | nil => exact absurd rfl hadm
        | cons c r => exact ⟨c, r, rfl⟩
      have h1 : encodeAxis .seriesList (c :: rest) =
          .arrCons (encSeries c) (JVal.ofList (rest.map encSeries)) := rfl
      have h2 : normalize_axis (.arrCons (encSeries c) (JVal.ofList (rest.map encSeries))) =
          shorthandAxis (.arrCons (encSeries c) (JVal.ofList (rest.map encSeries))) := rfl
      rw [h1, h2, shorthandAxis_arrCons]
      have hm : mapEnsure (.arrCons (encSeries c) (JVal.ofList (rest.map encSeries))) =
          JVal.ofList ((c :: rest).map canonSeries) := by
        have := mapEnsure_encSeries (c :: rest) hgood
        simpa [JVal.ofList, List.map_cons] using this
      rw [hm, seriesIds_canon]
      simp [canonAxis]
  | fullAxis =>
      obtain ⟨c, rest, rfl⟩ : ∃ c rest, a = c :: rest := by
        cases a with
        | nil => exact absurd rfl hadm
        | cons c r => exact ⟨c, r, rfl⟩
      have hm : mapEnsure (JVal.ofList ((c :: rest).map encSeries)) =
          JVal.ofList ((c :: rest).map canonSeries) := mapEnsure_encSeries _ hgood
      have h1 : encodeAxis .fullAxis (c :: rest) =
          .objCons "series" (.arrCons (encSeries c) (JVal.ofList (rest.map encSeries))) .objNil := by
        simp [encodeAxis, JVal.ofPairs, JVal.ofList]
      rw [h1]
      simp only [normalize_axis, JVal.lookup, JVal.isArr, if_pos]
      have hm2 : mapEnsure (.arrCons (encSeries c) (JVal.ofList (rest.map encSeries))) =
          JVal.ofList ((c :: rest).map canonSeries) := by
        simpa [JVal.ofList, List.map_cons] using hm
      rw [hm2, seriesIds_canon]
      simp [canonAxis, dropAxisKeys, objAppend, JVal.ofPairs, JVal.get, JVal.getD,
        JVal.lookup, pyOr, JVal.truthy]

end Straia

namespace Straia

theorem normalize_yaxes_encode (axes : List AxisContent) (fs : List YForm)
    (hf : List.Forall₂ Admissible fs axes)
    (hgood : ∀ a ∈ axes, ∀ c ∈ a, GoodSeries c) :
    normalize_yaxes (JVal.ofList (List.zipWith encodeAxis fs axes)) =
      JVal.ofList (axes.map canonAxis) := by
  induction hf with
  | nil => simp [JVal.ofList, normalize_yaxes]
  | cons hadm _ ih =>
      simp only [List.zipWith_cons_cons, List.map_cons, JVal.ofList, normalize_yaxes]
      rw [normalize_axis_encode _ _ hadm (hgood _ (by simp)),
        ih (fun a ha c hc => hgood a (by simp [ha]) c hc)]

theorem lookup_dropAxisKeys (y : JVal) (k : String)
    (hk : k = "series" ∨ k = "id" ∨ k = "name") :
    (dropAxisKeys y).lookup k = none := by
  induction y with
  | objCons k1 v rest ih1 ih2 =>
      by_cases h1 : k1 = "series" ∨ k1 = "id" ∨ k1 = "name"
      · simpa [dropAxisKeys, h1] using ih2
      · have hne : k1 ≠ k := by rintro rfl; exact h1 hk
        simp [dropAxisKeys, h1, JVal.lookup, hne, ih2]
  | _ => simp_all [dropAxisKeys, JVal.lookup]

theorem lookup_objAppend_of_none (a b : JVal) (k : String) (h : a.lookup k = none) :
    (objAppend a b).lookup k = b.lookup k := by
  induction a with
  | objCons k1 v rest ih1 ih2 =>
      by_cases hk : k1 = k
      · simp [JVal.lookup, hk] at h
      · simp only [JVal.lookup, hk, if_false] at h
        simp [objAppend, JVal.lookup, hk, ih2 h]
  | _ => simp_all [objAppend, JVal.lookup]

end Straia

namespace Straia

/-- C1: structurally equal yAxes inputs (same column, aggregate function and
group-by per series), submitted in any accepted shorthand form, normalize to
byte-identical output with identical, content-derived stable-hash ids; a
truthy caller-supplied id is reused verbatim at both the series and the axis
level. -/
theorem normalize_yaxes_stable_identity
    (axes : List AxisContent) (fs gs : List YForm)
    (hf : List.Forall₂ Admissible fs axes) (hg : List.Forall₂ Admissible gs axes)
    (hgood : ∀ a ∈ axes, ∀ c ∈ a, GoodSeries c) :
    normalize_yaxes (JVal.ofList (List.zipWith encodeAxis fs axes)) =
      normalize_yaxes (JVal.ofList (List.zipWith encodeAxis gs axes)) ∧
    normalize_yaxes (JVal.ofList (List.zipWith encodeAxis fs axes)) =
      JVal.ofList (axes.map canonAxis) ∧
    (∀ (i : String) (rest : JVal), i ≠ "" →
      (ensure_series_fields (.objCons "id" (.strv i) rest)).get "id" = .strv i) ∧
    (∀ (i : String) (series rest : JVal), i ≠ "" → series.isArr = true →
      (normalize_axis (.objCons "id" (.strv i) (.objCons "series" series rest))).get "id" =
        .strv i) := by
  refine ⟨?_, normalize_yaxes_encode axes fs hf hgood, ?_, ?_⟩
  · rw [normalize_yaxes_encode axes fs hf hgood, normalize_yaxes_encode axes gs hg hgood]
  · intro i rest hi
    simp [ensure_series_fields, JVal.ofPairs, JVal.get, JVal.getD, JVal.lookup,
      pyOr, JVal.truthy, hi]
  · intro i series rest hi hser
    have hy : (JVal.objCons "id" (.strv i) (.objCons "series" series rest)).lookup "series" =
        some series := by simp [JVal.lookup]
    simp only [normalize_axis, hy, hser, if_pos]
    have hid : (JVal.objCons "id" (.strv i) (.objCons "series" series rest)).get "id" =
        .strv i := by simp [JVal.get, JVal.getD, JVal.lookup]
    rw [hid]
    have hdrop := lookup_dropAxisKeys
      (JVal.objCons "id" (.strv i) (.objCons "series" series rest)) "id" (by simp)
    rw [JVal.get, JVal.getD, lookup_objAppend_of_none _ _ _ hdrop]
    simp [JVal.ofPairs, JVal.lookup, pyOr, JVal.truthy, hi]

/-- Witness for C1: the bare-string form and the fully-formed-axis form of
the one-series content ("sales", "sum", no group-by) normalize identically,
and supplied ids survive. -/
theorem normalize_yaxes_stable_identity_witness :
    normalize_yaxes (JVal.ofList (List.zipWith encodeAxis [YForm.bareStr]
        [[⟨"sales", "sum", none⟩]])) =
      normalize_yaxes (JVal.ofList (List.zipWith encodeAxis [YForm.fullAxis]
        [[⟨"sales", "sum", none⟩]])) ∧
    (ensure_series_fields (.objCons "id" (.strv "keep-me") .objNil)).get "id" =
      .strv "keep-me" :=
  have h := normalize_yaxes_stable_identity [[⟨"sales", "sum", none⟩]]
    [YForm.bareStr] [YForm.fullAxis]
    (List.Forall₂.cons ⟨⟨"sales", "sum", none⟩, rfl, rfl, rfl⟩ List.Forall₂.nil)
    (List.Forall₂.cons (List.cons_ne_nil _ _) List.Forall₂.nil)
    (by intro a ha c hc; simp at ha; subst ha; simp at hc; subst hc; exact ⟨by decide, by decide⟩)
  ⟨h.1, h.2.2.1 "keep-me" .objNil (by decide)⟩

end Straia

namespace Straia

/-! ## C2: deduplication signature -/

theorem strip_ids_eq_of_eqVol {v1 v2 : JVal} (h : EqVol v1 v2) :
    strip_ids v1 = strip_ids v2 := by
  induction h with
  | refl => rfl
  | arrCons _ _ ih1 ih2 => simp [strip_ids, ih1, ih2]
  | objConsVol k v1 v2 hk _ ih => simp [strip_ids, hk, ih]
  | objCons k _ _ ih1 ih2 =>
      by_cases hk : k = "id" ∨ k = "name" ∨ k = "color" <;>
        simp [strip_ids, hk, ih1, ih2]

/-- C2 (amended): two normalized visualization inputs whose differences are
confined to the values of the volatile keys `id`, `name`, `color` have equal
deduplication signatures, so once the first is recorded the second is flagged
as seen; a difference in the `title` field is *not* stripped (see the
counterexample). -/
theorem vizSignature_eq_of_eqVol (v1 v2 : JVal) (seen : List String)
    (h : EqVol v1 v2) :
    vizSignature v1 = vizSignature v2 ∧
      (vizSignature v1 :: seen).contains (vizSignature v2) = true := by
  have he : vizSignature v1 = vizSignature v2 := by
    unfold vizSignature
    rw [strip_ids_eq_of_eqVol h]
  exact ⟨he, by simp [he]⟩

/-- Witness for the amended C2: concrete inputs differing only in the series
`name` get equal signatures and the second is flagged a duplicate. -/
theorem vizSignature_eq_of_eqVol_witness :
    vizSignature (JVal.ofPairs [("chartType", .strv "bar"),
        ("yAxes", JVal.ofList [JVal.ofPairs [("name", .strv "Sales A")]])]) =
      vizSignature (JVal.ofPairs [("chartType", .strv "bar"),
        ("yAxes", JVal.ofList [JVal.ofPairs [("name", .strv "Sales B")]])]) :=
  (vizSignature_eq_of_eqVol _ _ []
    (EqVol.objCons "chartType" (EqVol.refl _)
      (EqVol.objCons "yAxes"
        (EqVol.arrCons (EqVol.objConsVol "name" _ _ (by simp) (EqVol.refl _))
          (EqVol.refl _))
        (EqVol.refl _)))).1

/-- Counterexample for C2 as stated: two fully normalized visualization
inputs that differ only in the chart title text (the `title` key) but have
identical data mapping get *different* signatures — `_strip_ids` removes only
`id`, `name`, `color`, so a title-only change defeats deduplication. -/
theorem vizSignature_title_counterexample :
    vizSignature (normalizeInput (JVal.ofPairs
        [("dataframeName", .strv "df"), ("chartType", .strv "bar"),
         ("title", .strv "Sales by region"),
         ("yAxes", JVal.ofList [.strv "sales"])])) ≠
      vizSignature (normalizeInput (JVal.ofPairs
        [("dataframeName", .strv "df"), ("chartType", .strv "bar"),
         ("title", .strv "Regional sales"),
         ("yAxes", JVal.ofList [.strv "sales"])])) := by decide

end Straia

namespace Straia

/-! ## C4: clarification gating -/

theorem submit_answers_eq (g : ClarGate) (t a : String) :
    (submit_clarification g t a).answers = dictSet g.answers t a := by
  unfold submit_clarification
  dsimp only
  split <;> rfl

theorem dictGet_dictSet (d : List (String × String)) (k v : String) :
    dictGet (dictSet d k v) k = some v := by
  induction d with
  | nil => simp [dictSet, dictGet, List.find?]
  | cons p rest ih =>
      by_cases h : p.1 = k
      · simp [dictSet, dictGet, List.find?, h]
      · simp only [dictSet, h, if_false]
        simpa [dictGet, List.find?, h] using ih

/-- C4: with expected terms `a`, `b`, submitting only `a` does not resolve
the wait; submitting both (in either order) resolves it with the mapping
holding both answers; every submit records unconditionally (a later submit
for the same term overwrites); and a submit releases the outstanding wait
exactly when every expected term then has a recorded answer. -/
theorem clarification_gate_c4 (g : ClarGate) (t a1 a2 : String)
    (hp : g.futurePending = true) (hd : g.futureResult = none) :
    (let g0 := wait_for_clarification ⟨[], ["a", "b"], false, none⟩
     (submit_clarification g0 "a" "x").futureResult = none ∧
     (submit_clarification (submit_clarification g0 "a" "x") "b" "y").futureResult =
       some [("a", "x"), ("b", "y")] ∧
     (submit_clarification (submit_clarification g0 "b" "y") "a" "x").futureResult =
       some [("b", "y"), ("a", "x")] ∧
     (∀ m, (submit_clarification (submit_clarification g0 "a" "x") "b" "y").futureResult = some m →
        dictGet m "a" = some "x" ∧ dictGet m "b" = some "y") ∧
     (∀ m, (submit_clarification (submit_clarification g0 "b" "y") "a" "x").futureResult = some m →
        dictGet m "a" = some "x" ∧ dictGet m "b" = some "y")) ∧
    dictGet (submit_clarification (submit_clarification g t a1) t a2).answers t = some a2 ∧
    ((submit_clarification g t a1).futureResult.isSome = true ↔
      ∀ x ∈ g.expectedTerms, dictHas (dictSet g.answers t a1) x = true) := by
  refine ⟨by decide, ?_, ?_⟩
  · rw [submit_answers_eq, submit_answers_eq, dictGet_dictSet]
  · unfold submit_clarification
    dsimp only
    simp only [hp, hd, Option.isNone_none, Bool.true_and, Bool.and_true]
    by_cases hc : (g.expectedTerms.all fun x => dictHas (dictSet g.answers t a1) x) = true
    · simp only [hc, if_true, Option.isSome_some, true_iff]
      exact List.all_eq_true.mp hc
    · simp only [hc, if_false, hd, Option.isSome_none]
      constructor
      · intro h; cases h
      · intro hall; exact absurd (List.all_eq_true.mpr hall) hc

/-- Witness for C4 at a concrete gate. -/
theorem clarification_gate_c4_witness :
    dictGet (submit_clarification (submit_clarification
        (wait_for_clarification ⟨[], ["q"], false, none⟩) "q" "first") "q" "second").answers
      "q" = some "second" :=
  (clarification_gate_c4 (wait_for_clarification ⟨[], ["q"], false, none⟩)
    "q" "first" "second" rfl rfl).2.1

end Straia

namespace Straia

/-! ## C8: working-directory discipline of the sandbox -/

/-- C8: for every execution, the working directory is unconditionally
restored on every exit path (success or raise); and when a data directory
was discovered, the snippet runs from exactly that directory — the run is
the run from the data directory with only the final cwd patched back. -/
theorem executePythonBlock_cwd {NS V : Type} (dataBaseDir : Option String)
    (snips : String → PySnippet NS V) (plt : NS → NS) (valRepr : V → List Char)
    (scan : NS → Schema → Schema) (code : String) (s0 : SBState NS) :
    (executePythonBlock dataBaseDir snips plt valRepr scan code s0).1.cwd = s0.cwd ∧
    (∀ d, dataBaseDir = some d →
      (sbPrepared dataBaseDir plt s0).cwd = d ∧
      executePythonBlock dataBaseDir snips plt valRepr scan code s0 =
        (let r := executePythonBlock none snips plt valRepr scan code {s0 with cwd := d}
         ({r.1 with cwd := s0.cwd}, r.2))) := by
  constructor
  · unfold executePythonBlock
    cases h : execSnippet (snips code) (sbPrepared dataBaseDir plt s0) <;> simp [h]
  · rintro d rfl
    refine ⟨rfl, ?_⟩
    have hprep : sbPrepared (some d) plt s0 = sbPrepared none plt {s0 with cwd := d} := rfl
    unfold executePythonBlock
    rw [hprep]
    cases h : execSnippet (snips code) (sbPrepared none plt {s0 with cwd := d}) <;> simp [h]

/-- Witness for C8 with a concrete data directory and a raising snippet. -/
theorem executePythonBlock_cwd_witness :
    (@executePythonBlock Unit Unit (some "/data/ws/files")
      (fun _ => ⟨fun s => .raised {s with cwd := "/elsewhere"} [] ['e'] ['t'], none⟩)
      id (fun _ => []) (fun _ d => d) "raise RuntimeError()" ⟨"/srv", (), []⟩).1.cwd =
      "/srv" ∧
    (@sbPrepared Unit (some "/data/ws/files") id ⟨"/srv", (), []⟩).cwd =
      "/data/ws/files" :=
  have h := @executePythonBlock_cwd Unit Unit (some "/data/ws/files")
    (fun _ => ⟨fun s => .raised {s with cwd := "/elsewhere"} [] ['e'] ['t'], none⟩)
    id (fun _ => []) (fun _ d => d) "raise RuntimeError()" ⟨"/srv", (), []⟩
  ⟨h.1, (h.2 "/data/ws/files" rfl).1⟩

end Straia

namespace Straia

/-! ## C6: output truncation -/

theorem dropWhile_replicate_append {c : Char} (hc : pyWhitespace c = false)
    (n : Nat) (l : List Char) :
    List.dropWhile pyWhitespace (List.replicate (n + 1) c ++ l) =
      List.replicate (n + 1) c ++ l := by
  rw [List.replicate_succ, List.cons_append, List.dropWhile_cons]
  simp only [hc, Bool.false_eq_true, if_false]

theorem pyStrip_replicate_space (n : Nat) :
    pyStrip (List.replicate (n + 1) 'a' ++ [' ']) = List.replicate (n + 1) 'a' := by
  have ha : pyWhitespace 'a' = false := by decide
  have hsp : pyWhitespace ' ' = true := by decide
  unfold pyStrip
  rw [dropWhile_replicate_append ha]
  rw [List.reverse_append, List.reverse_replicate]
  simp only [List.reverse_cons, List.reverse_nil, List.nil_append, List.singleton_append]
  rw [List.dropWhile_cons]
  simp only [hsp, if_true]
  rw [List.replicate_succ, List.dropWhile_cons]
  simp only [ha, Bool.false_eq_true, if_false]
  rw [← List.replicate_succ, List.reverse_replicate]

theorem processOut_small {l : List Char} (h1 : pyStrip l ≠ [])
    (h2 : ¬ ((pyStrip l).length > 5000)) :
    processOut l = some (pyStrip l) := by
  unfold processOut
  rw [if_neg (by simpa [List.isEmpty_iff] using h1), if_neg h2]

theorem processOut_large {l : List Char} (h : (pyStrip l).length > 5000) :
    processOut l = some ((pyStrip l).take 5000 ++ ['…']) := by
  unfold processOut
  rw [if_neg (by intro hc; rw [List.isEmpty_iff] at hc; rw [hc] at h; simp at h), if_pos h]

theorem processOut_empty {l : List Char} (h : pyStrip l = []) :
    processOut l = none := by
  unfold processOut
  rw [if_pos (by simp [List.isEmpty_iff, h])]

end Straia

namespace Straia

/-- C6 counterexample: an execution whose combined captured output has 5001
characters (5000 letters then one space) produces an `output` field that is
*not* the first 5000 characters of the combined output followed by the
ellipsis marker: the code strips whitespace before measuring, so this output
is left at 5000 characters with no marker. -/
theorem executePythonBlock_ok_output {NS V : Type} (dataBaseDir : Option String)
    (snips : String → PySnippet NS V) (plt : NS → NS) (valRepr : V → List Char)
    (scan : NS → Schema → Schema) (code : String) (s0 s1 : SBState NS)
    (out err : List Char)
    (hrun : execSnippet (snips code) (sbPrepared dataBaseDir plt s0) = .ok s1 out err)
    (hle : (snips code).lastExpr = none) :
    (executePythonBlock dataBaseDir snips plt valRepr scan code s0).2.output =
      processOut out ∧
    (executePythonBlock dataBaseDir snips plt valRepr scan code s0).2.status =
      some "ok" := by
  unfold executePythonBlock
  dsimp only
  rw [hrun]
  simp [hle]

theorem output_truncation_counterexample :
    (List.replicate 5000 'a' ++ [' ']).length > 5000 ∧
    (@executePythonBlock Unit Unit none
        (fun _ => ⟨fun s => .ok s (List.replicate 5000 'a' ++ [' ']) [], none⟩)
        id (fun _ => []) (fun _ d => d) "big print" ⟨"/", (), []⟩).2.output ≠
      some ((List.replicate 5000 'a' ++ [' ']).take 5000 ++ ['…']) := by
  have h5000 : (5000 : Nat) = 4999 + 1 := rfl
  constructor
  · simp only [List.length_append, List.length_replicate, List.length_cons,
      List.length_nil]
    omega
  · have hout := (@executePythonBlock_ok_output Unit Unit none
        (fun _ => ⟨fun s => .ok s (List.replicate 5000 'a' ++ [' ']) [], none⟩)
        id (fun _ => []) (fun _ d => d) "big print" ⟨"/", (), []⟩ ⟨"/", (), []⟩
        (List.replicate 5000 'a' ++ [' ']) [] rfl rfl).1
    rw [hout, h5000]
    rw [processOut_small
      (by rw [pyStrip_replicate_space 4999, List.replicate_succ]; exact List.cons_ne_nil _ _)
      (by rw [pyStrip_replicate_space 4999]; simp only [List.length_replicate]; omega)]
    rw [pyStrip_replicate_space 4999]
    intro h
    have h2 := congrArg List.length (Option.some.inj h)
    simp only [List.length_replicate, List.length_append, List.length_take,
      List.length_cons, List.length_nil] at h2
    omega

end Straia

namespace Straia

/-- C6 (amended): the combined captured output is first stripped of leading
and trailing whitespace; when the stripped text exceeds 5000 characters the
`output` field is exactly its first 5000 characters followed by the ellipsis
marker; when it is non-empty and at most 5000 characters it is kept as the
stripped text; when it strips to empty, no `output` field is set. -/
theorem output_truncation_amended {NS V : Type} (dataBaseDir : Option String)
    (snips : String → PySnippet NS V) (plt : NS → NS) (valRepr : V → List Char)
    (scan : NS → Schema → Schema) (code : String) (s0 s1 : SBState NS)
    (out err : List Char)
    (hrun : execSnippet (snips code) (sbPrepared dataBaseDir plt s0) = .ok s1 out err)
    (hle : (snips code).lastExpr = none) :
    ((pyStrip out).length > 5000 →
      (executePythonBlock dataBaseDir snips plt valRepr scan code s0).2.output =
        some ((pyStrip out).take 5000 ++ ['…'])) ∧
    (pyStrip out ≠ [] → ¬ ((pyStrip out).length > 5000) →
      (executePythonBlock dataBaseDir snips plt valRepr scan code s0).2.output =
        some (pyStrip out)) ∧
    (pyStrip out = [] →
      (executePythonBlock dataBaseDir snips plt valRepr scan code s0).2.output = none) := by
  have hbase := (executePythonBlock_ok_output dataBaseDir snips plt valRepr scan code
    s0 s1 out err hrun hle).1
  refine ⟨fun h => ?_, fun h1 h2 => ?_, fun h => ?_⟩
  · rw [hbase, processOut_large h]
  · rw [hbase, processOut_small h1 h2]
  · rw [hbase, processOut_empty h]

/-- Witness for the amended C6: a short two-character output is passed
through unmodified. -/
theorem output_truncation_amended_witness :
    pyStrip ['h', 'i'] ≠ [] ∧
    (@executePythonBlock Unit Unit none
        (fun _ => ⟨fun s => .ok s ['h', 'i'] [], none⟩)
        id (fun _ => []) (fun _ d => d) "print('hi')" ⟨"/", (), []⟩).2.output =
      some (pyStrip ['h', 'i']) :=
  ⟨by decide,
    (@output_truncation_amended Unit Unit none
      (fun _ => ⟨fun s => .ok s ['h', 'i'] [], none⟩)
      id (fun _ => []) (fun _ d => d) "print('hi')" ⟨"/", (), []⟩ ⟨"/", (), []⟩
      ['h', 'i'] [] rfl rfl).2.1 (by decide) (by decide)⟩

end Straia

namespace Straia

/-! ## C10: trailing bare expression evaluated twice -/

/-- C10: when a snippet's final statement is a bare expression, its
evaluation function `f` is applied twice in sequence against the persistent
state — once under `exec` (stdout captured into the result) and a second
time via `eval` (stdout *not* captured) — so the final namespace is the
second application's namespace, and only the `repr` of the second
evaluation's non-`None` value is appended to the captured output. -/
theorem last_expression_double_eval {NS V : Type} (dataBaseDir : Option String)
    (snips : String → PySnippet NS V) (plt : NS → NS) (valRepr : V → List Char)
    (scan : NS → Schema → Schema) (code : String) (s0 s1 s2 s3 : SBState NS)
    (f : SBState NS → ExprRun NS V) (o1 e1 o2 e2 o3 e3 : List Char)
    (v2 v3 : Option V)
    (hlast : (snips code).lastExpr = some f)
    (hbody : (snips code).runBody (sbPrepared dataBaseDir plt s0) = .ok s1 o1 e1)
    (h1 : f s1 = .ok s2 v2 o2 e2)
    (h2 : f s2 = .ok s3 v3 o3 e3) :
    (executePythonBlock dataBaseDir snips plt valRepr scan code s0).1.ns = s3.ns ∧
    (executePythonBlock dataBaseDir snips plt valRepr scan code s0).2.status = some "ok" ∧
    (executePythonBlock dataBaseDir snips plt valRepr scan code s0).2.output =
      processOut ((o1 ++ o2) ++
        (match v3 with
         | some v => (if (o1 ++ o2).isEmpty then [] else ['\n']) ++ valRepr v
         | none => [])) ∧
    (executePythonBlock dataBaseDir snips plt valRepr scan code s0).1.cwd = s0.cwd := by
  have hex : execSnippet (snips code) (sbPrepared dataBaseDir plt s0) =
      .ok s2 (o1 ++ o2) (e1 ++ e2) := by
    unfold execSnippet
    rw [hbody]
    dsimp only
    rw [hlast]
    dsimp only
    rw [h1]
  unfold executePythonBlock
  dsimp only
  rw [hex]
  simp only [hlast, h2]
  cases v3 <;> simp

/-- Witness for C10: a bare trailing expression that increments a counter
namespace leaves the counter at 2 — the side effect happened twice. -/
theorem last_expression_double_eval_witness :
    (@executePythonBlock Nat Unit none
        (fun _ => ⟨fun s => .ok s [] [],
          some (fun s => .ok {s with ns := s.ns + 1} (some ()) ['x'] [])⟩)
        id (fun _ => ['v']) (fun _ d => d) "counter += 1\ncounter" ⟨"/", 0, []⟩).1.ns = 2 :=
  (@last_expression_double_eval Nat Unit none
    (fun _ => ⟨fun s => .ok s [] [],
      some (fun s => .ok {s with ns := s.ns + 1} (some ()) ['x'] [])⟩)
    id (fun _ => ['v']) (fun _ d => d) "counter += 1\ncounter"
    ⟨"/", 0, []⟩ ⟨"/", 0, []⟩ ⟨"/", 1, []⟩ ⟨"/", 2, []⟩
    (fun s => .ok {s with ns := s.ns + 1} (some ()) ['x'] [])
    [] [] ['x'] [] ['x'] [] (some ()) (some ()) rfl rfl rfl rfl).1

end Straia

namespace Straia

/-! ## Field-preservation lemmas for the event-patching steps -/

theorem ensureTableInfo_event (t : String) (ev : Ev) :
    (ensureTableInfo t ev).event = ev.event := by
  unfold ensureTableInfo; split <;> rfl

theorem ensureTableInfo_action (t : String) (ev : Ev) :
    (ensureTableInfo t ev).action = ev.action := by
  unfold ensureTableInfo; split <;> rfl

theorem ensureTableInfo_blockType (t : String) (ev : Ev) :
    (ensureTableInfo t ev).blockType = ev.blockType := by
  unfold ensureTableInfo; split <;> rfl

theorem ensureTableInfo_content (t : String) (ev : Ev) :
    (ensureTableInfo t ev).content = ev.content := by
  unfold ensureTableInfo; split <;> rfl

theorem ensureTableInfo_input (t : String) (ev : Ev) :
    (ensureTableInfo t ev).input = ev.input := by
  unfold ensureTableInfo; split <;> rfl

theorem ensureTableInfo_blockId (t : String) (ev : Ev) :
    (ensureTableInfo t ev).blockId = ev.blockId := by
  unfold ensureTableInfo; split <;> rfl

theorem ensureBlockId_event (f : String) (ev : Ev) :
    (ensureBlockId f ev).event = ev.event := by
  unfold ensureBlockId; split <;> rfl

theorem ensureBlockId_action (f : String) (ev : Ev) :
    (ensureBlockId f ev).action = ev.action := by
  unfold ensureBlockId; split <;> rfl

theorem ensureBlockId_blockType (f : String) (ev : Ev) :
    (ensureBlockId f ev).blockType = ev.blockType := by
  unfold ensureBlockId; split <;> rfl

theorem ensureBlockId_content (f : String) (ev : Ev) :
    (ensureBlockId f ev).content = ev.content := by
  unfold ensureBlockId; split <;> rfl

theorem ensureBlockId_input (f : String) (ev : Ev) :
    (ensureBlockId f ev).input = ev.input := by
  unfold ensureBlockId; split <;> rfl

/-! ## Shape lemmas for one loop iteration -/

theorem postYield_exit_ne_brk {NS V : Type} (P : SessionParams NS V) (ev : Ev)
    (st : SessState NS) : (postYield P ev st).2.2 ≠ StepExit.brk := by
  unfold postYield
  split
  · dsimp only
    split
    · simp
    · split
      · simp
      · split <;> simp
  · split
    · simp
    · split <;> simp

end Straia

namespace Straia

theorem executePythonBlock_event {NS V : Type} (dataBaseDir : Option String)
    (snips : String → PySnippet NS V) (plt : NS → NS) (valRepr : V → List Char)
    (scan : NS → Schema → Schema) (code : String) (s0 : SBState NS) :
    (executePythonBlock dataBaseDir snips plt valRepr scan code s0).2.event =
      "execution_result" := by
  unfold executePythonBlock
  dsimp only
  cases h : execSnippet (snips code) (sbPrepared dataBaseDir plt s0) <;> rfl

theorem postYield_events_shape {NS V : Type} (P : SessionParams NS V) (ev : Ev)
    (st : SessState NS) :
    ∃ tail, (postYield P ev st).1 = ev :: tail ∧
      ∀ e ∈ tail, e.event = "execution_result" ∨ e.event = "action" ∨ e.event = "insight" := by
  unfold postYield
  split
  · dsimp only
    split
    · refine ⟨_, rfl, ?_⟩
      intro e he
      cases he with
      | head => exact Or.inl (executePythonBlock_event _ _ _ _ _ _ _)
      | tail _ h => cases h
    · split
      · split
        · refine ⟨_, rfl, ?_⟩
          intro e he
          cases he with
          | head => exact Or.inl (executePythonBlock_event _ _ _ _ _ _ _)
          | tail _ h =>
              cases h with
              | head => exact Or.inr (Or.inl rfl)
              | tail _ h2 => cases h2
        · refine ⟨_, rfl, ?_⟩
          intro e he
          cases he with
          | head => exact Or.inl (executePythonBlock_event _ _ _ _ _ _ _)
          | tail _ h => cases h
      · split
        · refine ⟨_, rfl, ?_⟩
          intro e he
          cases he with
          | head => exact Or.inl (executePythonBlock_event _ _ _ _ _ _ _)
          | tail _ h => cases h
        · refine ⟨_, rfl, ?_⟩
          intro e he
          cases he with
          | head => exact Or.inl (executePythonBlock_event _ _ _ _ _ _ _)
          | tail _ h => cases h
  · split
    · refine ⟨_, rfl, ?_⟩
      intro e he
      cases he with
      | head => exact Or.inr (Or.inr rfl)
      | tail _ h => cases h
    · split
      · exact ⟨_, rfl, by intro e he; cases he⟩
      · exact ⟨_, rfl, by intro e he; cases he⟩

end Straia

namespace Straia

theorem postYield_event_head {NS V : Type} (P : SessionParams NS V) (ev : Ev)
    (st : SessState NS) (hne : ev.event ≠ "session_started")
    (hnc : ev.event ≠ "session_completed") :
    ∀ e ∈ (postYield P ev st).1,
      e.event ≠ "session_started" ∧ e.event ≠ "session_completed" := by
  obtain ⟨tail, heq, htail⟩ := postYield_events_shape P ev st
  rw [heq]
  intro e he
  cases he with
  | head => exact ⟨hne, hnc⟩
  | tail _ h =>
      rcases htail e h with h1 | h1 | h1 <;> rw [h1] <;> exact ⟨by decide, by decide⟩

/-- A non-`done` oracle response makes the iteration fall through (or
`continue`, or die) — never `break` — and every event it emits is neither
`session_started` nor `session_completed`. -/
theorem runStep_shape {NS V : Type} (P : SessionParams NS V) (i : Nat)
    (st : SessState NS)
    (hor : (P.oracle i).event = "done" ∨ (P.oracle i).event = "action" ∨
      (P.oracle i).event = "insight") :
    ((P.oracle i).event = "done" ∧
      runStep P i st =
        ([doneEv], {st with notebookBlocks := recordBlock (P.oracle i) st.notebookBlocks},
          .brk)) ∨
    ((runStep P i st).2.2 ≠ StepExit.brk ∧
      ∀ e ∈ (runStep P i st).1,
        e.event ≠ "session_started" ∧ e.event ≠ "session_completed") := by
  unfold runStep
  dsimp only
  by_cases hdone : (P.oracle i).event = "done"
  · left
    exact ⟨hdone, by rw [if_pos hdone]⟩
  · right
    rw [if_neg hdone]
    have hev2 : (ensureBlockId (P.freshId i) (ensureTableInfo P.tableInfo
        (P.oracle i))).event = (P.oracle i).event := by
      rw [ensureBlockId_event, ensureTableInfo_event]
    have hne : (P.oracle i).event ≠ "session_started" := by
      rcases hor with h | h | h <;> rw [h] <;> decide
    have hnc : (P.oracle i).event ≠ "session_completed" := by
      rcases hor with h | h | h <;> rw [h] <;> decide
    split
    · -- visualization branch
      split
      · -- duplicate: no events, continue
        exact ⟨by simp, by intro e he; cases he⟩
      · constructor
        · exact postYield_exit_ne_brk _ _ _
        · refine postYield_event_head _ _ _ ?_ ?_ <;> simp [hev2, hne, hnc]
    · constructor
      · exact postYield_exit_ne_brk _ _ _
      · refine postYield_event_head _ _ _ ?_ ?_ <;> simp [hev2, hne, hnc]

end Straia

namespace Straia

/-- Loop-level event discipline: a finished loop emits a clean prefix closed
by exactly the `done` terminal event; a non-finished loop emits only clean
events (no `session_started`, no `session_completed`). -/
theorem runLoop_events {NS V : Type} (P : SessionParams NS V)
    (hor : ∀ j, (P.oracle j).event = "done" ∨ (P.oracle j).event = "action" ∨
      (P.oracle j).event = "insight") :
    ∀ (fuel i : Nat) (st : SessState NS),
      ((runLoop P i fuel st).2.2.2 = LoopExit.finished ∧
        ∃ pre, (runLoop P i fuel st).1 = pre ++ [doneEv] ∧
          ∀ e ∈ pre, e.event ≠ "session_started" ∧ e.event ≠ "session_completed") ∨
      ((runLoop P i fuel st).2.2.2 ≠ LoopExit.finished ∧
        ∀ e ∈ (runLoop P i fuel st).1,
          e.event ≠ "session_started" ∧ e.event ≠ "session_completed") := by
  intro fuel
  induction fuel with
  | zero =>
      intro i st
      right
      exact ⟨by simp [runLoop], by intro e he; cases he⟩
  | succ fuel ih =>
      intro i st
      rcases runStep_shape P i st (hor i) with ⟨hdone, hrs⟩ | ⟨hexit, hclean⟩
      · left
        unfold runLoop
        rw [hrs]
        exact ⟨rfl, [], rfl, by intro e he; cases he⟩
      · rcases hrs : runStep P i st with ⟨evs, st1, ex⟩
        rw [hrs] at hexit hclean
        unfold runLoop
        rw [hrs]
        cases ex with
        | brk => exact absurd rfl hexit
        | aborted =>
            right
            exact ⟨by simp, by intro e he; exact hclean e he⟩
        | cont =>
            rcases ih (i + 1) st1 with ⟨hfin, pre, hpre, hprec⟩ | ⟨hnf, hcl⟩
            · left
              refine ⟨by simpa using hfin, evs ++ pre, ?_, ?_⟩
              · dsimp only
                rw [hpre, List.append_assoc]
              · intro e he
                rcases List.mem_append.mp he with h | h
                · exact hclean e h
                · exact hprec e h
            · right
              refine ⟨by simpa using hnf, ?_⟩
              intro e he
              dsimp only at he
              rcases List.mem_append.mp he with h | h
              · exact hclean e h
              · exact hcl e h

end Straia

namespace Straia

theorem getLast?_append_singleton {α : Type} (l : List α) (a : α) :
    (l ++ [a]).getLast? = some a := by
  induction l with
  | nil => rfl
  | cons x xs ih =>
      rw [List.cons_append]
      cases hxs : xs ++ [a] with
      | nil => exact absurd (congrArg List.length hxs) (by simp)
      | cons y ys =>
          rw [List.getLast?_cons_cons, ← hxs]
          exact ih

/-- C9: for a session whose oracle follows the contract (events `done`,
`action` or `insight`) and whose stream runs to normal completion (the
generator does not die mid-loop), exactly one `session_started` event is
emitted and it is first, and exactly one `session_completed` event is
emitted and it is last; the model emits events in generation order by
construction, with no reordering. -/
theorem session_event_discipline_c9 {NS V : Type} (P : SessionParams NS V)
    (s0 : SBState NS)
    (hor : ∀ j, (P.oracle j).event = "done" ∨ (P.oracle j).event = "action" ∨
      (P.oracle j).event = "insight")
    (hnorm : (astream P s0).2.2.2 ≠ LoopExit.crashed) :
    (astream P s0).1.head? = some (startedEv P.question) ∧
    (astream P s0).1.countP (fun e => e.event == "session_started") = 1 ∧
    ((astream P s0).1.getLast?).map (fun e => e.event) = some "session_completed" ∧
    (astream P s0).1.countP (fun e => e.event == "session_completed") = 1 := by
  have hloop := runLoop_events P hor MAX_STEPS 0 (initState s0)
  unfold astream at hnorm ⊢
  dsimp only at hnorm ⊢
  generalize hgen : runLoop P 0 MAX_STEPS (initState s0) = r at hloop hnorm ⊢
  obtain ⟨evs, stf, n, ex⟩ := r
  dsimp only at hloop hnorm ⊢
  cases ex with
  | crashed => simp at hnorm
  | stopped =>
      rcases hloop with ⟨hfin, _⟩ | ⟨_, hclean⟩
      · cases hfin
      refine ⟨rfl, ?_, ?_, ?_⟩
      · rw [List.countP_append, List.countP_append]
        have h0 : evs.countP (fun e => e.event == "session_started") = 0 :=
          List.countP_eq_zero.mpr (fun e he => by
            simp only [beq_iff_eq]
            exact (hclean e he).1)
        rw [h0]
        rfl
      · rw [getLast?_append_singleton]
        rfl
      · rw [List.countP_append, List.countP_append]
        have h0 : evs.countP (fun e => e.event == "session_completed") = 0 :=
          List.countP_eq_zero.mpr (fun e he => by
            simp only [beq_iff_eq]
            exact (hclean e he).2)
        rw [h0]
        rfl
  | finished =>
      rcases hloop with ⟨_, pre, hpre, hclean⟩ | ⟨hnf, _⟩
      swap
      · exact absurd rfl hnf
      subst hpre
      refine ⟨rfl, ?_, ?_, ?_⟩
      · rw [List.countP_append, List.countP_append]
        have h0 : pre.countP (fun e => e.event == "session_started") = 0 :=
          List.countP_eq_zero.mpr (fun e he => by
            simp only [beq_iff_eq]
            exact (hclean e he).1)
        rw [h0]
        rfl
      · rw [← List.append_assoc, getLast?_append_singleton]
        rfl
      · rw [List.countP_append, List.countP_append]
        have h0 : pre.countP (fun e => e.event == "session_completed") = 0 :=
          List.countP_eq_zero.mpr (fun e he => by
            simp only [beq_iff_eq]
            exact (hclean e he).2)
        rw [h0]
        rfl

set_option maxRecDepth 4000 in
/-- Witness for C9 on a concrete conforming session (two visualization
proposals, then done). -/
theorem session_event_discipline_c9_witness :
    (astream dupParams sbUnit).1.head? = some (startedEv dupParams.question) ∧
    ((astream dupParams sbUnit).1.getLast?).map (fun e => e.event) =
      some "session_completed" :=
  have h := session_event_discipline_c9 dupParams sbUnit
    (by
      intro j
      match j with
      | 0 => right; left; rfl
      | 1 => right; left; rfl
      | (n + 2) => left; rfl)
    (by decide)
  ⟨h.1, h.2.2.1⟩

end Straia

namespace Straia

theorem postYield_cont_of_strip_ne {NS V : Type} (P : SessionParams NS V) (ev : Ev)
    (st : SessState NS) (h : pyStripS (ev.content.getD "") ≠ "") :
    (postYield P ev st).2.2 = StepExit.cont := by
  unfold postYield
  split
  · dsimp only
    split
    · rename_i habort
      exact absurd habort h
    · split
      · rfl
      · split <;> rfl
  · split
    · rfl
    · split <;> rfl

theorem runStep_pyPass {NS V : Type} (P : SessionParams NS V) (i : Nat)
    (st : SessState NS) (hev : P.oracle i = pyPassEv) :
    (runStep P i st).2.2 = StepExit.cont := by
  unfold runStep
  dsimp only
  rw [hev]
  rw [if_neg (by decide : ¬ (pyPassEv.event = "done"))]
  have hviz : vizCondition (ensureBlockId (P.freshId i)
      (ensureTableInfo P.tableInfo pyPassEv)) = false := by
    unfold vizCondition
    rw [ensureBlockId_blockType, ensureTableInfo_blockType]
    simp [pyPassEv]
  simp only [hviz, Bool.false_eq_true, if_false]
  apply postYield_cont_of_strip_ne
  rw [ensureBlockId_content, ensureTableInfo_content]
  decide

/-- C5: driven by an oracle that never signals completion (it always
proposes a python `pass` create_block), the planning loop performs exactly
the configured `MAX_STEPS = 12` iterations and the stream terminates with
the "Stopped after max iterations." `session_completed` event. -/
theorem step_budget_c5 {NS V : Type} (P : SessionParams NS V) (s0 : SBState NS)
    (hor : ∀ j, P.oracle j = pyPassEv) :
    (astream P s0).2.2.2 = LoopExit.stopped ∧
    (astream P s0).2.2.1 = MAX_STEPS ∧
    MAX_STEPS = 12 ∧
    (astream P s0).1.getLast? = some stoppedEv := by
  have hloop : ∀ fuel i (st : SessState NS),
      (runLoop P i fuel st).2.2.2 = LoopExit.stopped ∧
      (runLoop P i fuel st).2.2.1 = fuel := by
    intro fuel
    induction fuel with
    | zero => intro i st; exact ⟨rfl, rfl⟩
    | succ fuel ih =>
        intro i st
        have hcont := runStep_pyPass P i st (hor i)
        rcases hrs : runStep P i st with ⟨evs, st1, ex⟩
        rw [hrs] at hcont
        dsimp only at hcont
        subst hcont
        unfold runLoop
        rw [hrs]
        dsimp only
        exact ⟨(ih (i + 1) st1).1, by rw [(ih (i + 1) st1).2]⟩
  unfold astream
  dsimp only
  have h1 := (hloop MAX_STEPS 0 (initState s0)).1
  have h2 := (hloop MAX_STEPS 0 (initState s0)).2
  generalize hgen : runLoop P 0 MAX_STEPS (initState s0) = r at h1 h2 ⊢
  obtain ⟨evs, stf, n, ex⟩ := r
  dsimp only at h1 h2 ⊢
  subst h1
  subst h2
  exact ⟨rfl, rfl, rfl, getLast?_append_singleton _ _⟩

/-- Witness for C5 on the concrete always-`pass` session. -/
theorem step_budget_c5_witness :
    (astream passParams sbUnit).2.2.1 = 12 ∧
    (astream passParams sbUnit).1.getLast? = some stoppedEv :=
  have h := step_budget_c5 passParams sbUnit (fun _ => rfl)
  ⟨h.2.1.trans h.2.2.1, h.2.2.2⟩

end Straia

namespace Straia

theorem executePythonBlock_raised {NS V : Type} (dataBaseDir : Option String)
    (snips : String → PySnippet NS V) (plt : NS → NS) (valRepr : V → List Char)
    (scan : NS → Schema → Schema) (code : String) (s0 s1 : SBState NS)
    (o e tb : List Char)
    (hraise : execSnippet (snips code) (sbPrepared dataBaseDir plt s0) =
      .raised s1 o e tb) :
    executePythonBlock dataBaseDir snips plt valRepr scan code s0 =
      ({cwd := s0.cwd, ns := s1.ns, derivedSchema := scan s1.ns s1.derivedSchema},
       {event := "execution_result", blockType := some "python",
        status := some "error", error := some (e ++ '\n' :: tb)}) := by
  unfold executePythonBlock
  dsimp only
  rw [hraise]

/-- C7: a python block whose execution raises yields an `execution_result`
event with status "error" carrying the captured error text (stderr plus a
newline plus the traceback), consults the code-repair oracle once and emits
at most one new create_block event carrying the returned replacement (none
when the oracle streams no string source), and the iteration ends with
`continue` — the error is never fatal to the session. -/
theorem python_error_repair_c7 {NS V : Type} (P : SessionParams NS V) (i : Nat)
    (st : SessState NS) (s1 : SBState NS) (o e tb : List Char)
    (hevent : (P.oracle i).event = "action")
    (haction : (P.oracle i).action = some "create_block")
    (hbt : (P.oracle i).blockType = some "python")
    (hstrip : pyStripS ((P.oracle i).content.getD "") ≠ "")
    (hraise : execSnippet (P.snippets ((P.oracle i).content.getD ""))
        (sbPrepared P.dataBaseDir P.pltStub st.sandbox) = .raised s1 o e tb) :
    (runStep P i st).2.2 = StepExit.cont ∧
    (runStep P i st).1 =
      (let ev2 := ensureBlockId (P.freshId i) (ensureTableInfo P.tableInfo (P.oracle i))
       let feedback : Ev :=
         {event := "execution_result", blockType := some "python",
          status := some "error", error := some (e ++ '\n' :: tb),
          blockId := ev2.blockId}
       ev2 :: feedback ::
         (match firstSome (P.repairEdits ((P.oracle i).content.getD "")
             (e ++ '\n' :: tb)) with
          | some src => [repairEv src]
          | none => [])) ∧
    (runStep P i st).1.length ≤ 3 := by
  have hev2e : (ensureBlockId (P.freshId i) (ensureTableInfo P.tableInfo
      (P.oracle i))).event = "action" := by
    rw [ensureBlockId_event, ensureTableInfo_event, hevent]
  have hev2a : (ensureBlockId (P.freshId i) (ensureTableInfo P.tableInfo
      (P.oracle i))).action = some "create_block" := by
    rw [ensureBlockId_action, ensureTableInfo_action, haction]
  have hev2b : (ensureBlockId (P.freshId i) (ensureTableInfo P.tableInfo
      (P.oracle i))).blockType = some "python" := by
    rw [ensureBlockId_blockType, ensureTableInfo_blockType, hbt]
  have hev2c : (ensureBlockId (P.freshId i) (ensureTableInfo P.tableInfo
      (P.oracle i))).content = (P.oracle i).content := by
    rw [ensureBlockId_content, ensureTableInfo_content]
  have hmain : runStep P i st =
      (let ev2 := ensureBlockId (P.freshId i) (ensureTableInfo P.tableInfo (P.oracle i))
       let feedback : Ev :=
         {event := "execution_result", blockType := some "python",
          status := some "error", error := some (e ++ '\n' :: tb),
          blockId := ev2.blockId}
       let sb2 : SBState NS :=
         {cwd := st.sandbox.cwd, ns := s1.ns,
          derivedSchema := P.scanSchema s1.ns s1.derivedSchema}
       let st2 : SessState NS :=
         {notebookCells := st.notebookCells ++ [(P.oracle i).content.getD ""],
          contextLines := st.contextLines ++
            ["ERROR: " ++ String.mk ((e ++ '\n' :: tb).take 120) ++ " running " ++
              takeS 120 (firstLineOf (pyStripS ((P.oracle i).content.getD "")))],
          notebookBlocks := recordBlock (P.oracle i) st.notebookBlocks,
          seenViz := st.seenViz, sandbox := sb2}
       (ev2 :: feedback ::
         (match firstSome (P.repairEdits ((P.oracle i).content.getD "")
             (e ++ '\n' :: tb)) with
          | some src => [repairEv src]
          | none => []),
        st2, StepExit.cont)) := by
    unfold runStep
    dsimp only
    rw [if_neg (show ¬ ((P.oracle i).event = "done") from by rw [hevent]; decide)]
    have hviz : vizCondition (ensureBlockId (P.freshId i)
        (ensureTableInfo P.tableInfo (P.oracle i))) = false := by
      unfold vizCondition
      rw [ensureBlockId_blockType, ensureTableInfo_blockType, hbt]
      simp
    simp only [hviz, Bool.false_eq_true, if_false]
    unfold postYield
    rw [if_pos ⟨hev2e, hev2a, hev2b⟩]
    dsimp only
    rw [hev2c]
    rw [executePythonBlock_raised P.dataBaseDir P.snippets P.pltStub P.valRepr
      P.scanSchema ((P.oracle i).content.getD "") st.sandbox s1 o e tb hraise]
    dsimp only
    rw [if_neg hstrip]
    rw [if_pos rfl]
    rfl
  refine ⟨?_, ?_, ?_⟩
  · rw [hmain]
  · rw [hmain]
  · rw [hmain]
    dsimp only
    cases firstSome (P.repairEdits ((P.oracle i).content.getD "") (e ++ '\n' :: tb)) <;>
      simp

end Straia

namespace Straia

/-- Witness for C7 on the concrete always-failing session. -/
theorem python_error_repair_c7_witness :
    (runStep errParams 0 (initState sbUnit)).2.2 = StepExit.cont ∧
    (runStep errParams 0 (initState sbUnit)).1.length ≤ 3 :=
  have h := python_error_repair_c7 errParams 0 (initState sbUnit)
    ⟨"/", (), []⟩ [] ['E'] ['T'] rfl rfl rfl (by decide) rfl
  ⟨h.1, h.2.2⟩

end Straia

namespace Straia

/-- C3 (amended): a visualization block flagged as a duplicate is silently
dropped (no event is emitted) and the iteration ends with `continue`, not
termination; the notebook cells, context lines, dedup cache and sandbox are
untouched for the suppressed candidate — but the structured notebook-block
history used as planning context, recorded before the dedup check, *is*
advanced by one entry for it. -/
theorem viz_duplicate_suppressed_c3 {NS V : Type} (P : SessionParams NS V) (i : Nat)
    (st : SessState NS) (inp : JVal)
    (hevent : (P.oracle i).event = "action")
    (haction : (P.oracle i).action = some "create_block")
    (hbt : (P.oracle i).blockType = some "visualizationV2")
    (hinp : (P.oracle i).input = some inp)
    (hobj : inp.isObj = true) (hy : inp.hasKey "yAxes" = true)
    (hseen : st.seenViz.contains (vizSignature (normalizeInput inp)) = true) :
    runStep P i st =
      ([], {st with notebookBlocks := recordBlock (P.oracle i) st.notebookBlocks},
        StepExit.cont) ∧
    recordBlock (P.oracle i) st.notebookBlocks =
      st.notebookBlocks ++
        [NBBlock.vizV2 (inp.get "chartType") (inp.get "dataframeName")
          (inp.get "xAxis") (inp.get "yAxes") (inp.get "title")] := by
  have htruthy : inp.truthy = true := by
    cases inp <;> simp_all [JVal.hasKey, JVal.lookup, JVal.truthy]
  have hev2i : (ensureBlockId (P.freshId i) (ensureTableInfo P.tableInfo
      (P.oracle i))).input = some inp := by
    rw [ensureBlockId_input, ensureTableInfo_input, hinp]
  constructor
  · unfold runStep
    dsimp only
    rw [if_neg (show ¬ ((P.oracle i).event = "done") from by rw [hevent]; decide)]
    have hviz : vizCondition (ensureBlockId (P.freshId i)
        (ensureTableInfo P.tableInfo (P.oracle i))) = true := by
      unfold vizCondition
      rw [ensureBlockId_event, ensureTableInfo_event, hevent,
        ensureBlockId_action, ensureTableInfo_action, haction,
        ensureBlockId_blockType, ensureTableInfo_blockType, hbt, hev2i]
      simp [hobj, hy]
    simp only [hviz, if_true]
    rw [hev2i]
    dsimp only [Option.getD_some]
    simp only [hseen, if_true]
  · unfold recordBlock
    rw [if_pos ⟨hevent, haction⟩, hbt]
    rw [if_neg (by decide : ¬ ((some "visualizationV2" : Option String) = some "python"))]
    rw [if_pos rfl, hinp]
    simp [htruthy]

set_option maxRecDepth 4000 in
/-- C3 counterexample (the claim as stated): with an oracle that proposes
the same visualization twice and then signals done, the duplicate is dropped
(exactly one action event is emitted) and the session runs on to normal
completion — yet the notebook-block planning history holds TWO entries: it
was advanced for the suppressed candidate, contradicting "the notebook-block
history passed as planning context is not advanced". -/
theorem viz_duplicate_history_counterexample :
    (astream dupParams sbUnit).2.1.notebookBlocks.length = 2 ∧
    (astream dupParams sbUnit).1.countP (fun e => e.event == "action") = 1 ∧
    (astream dupParams sbUnit).2.2.2 = LoopExit.finished := by
  refine ⟨?_, ?_, ?_⟩ <;> decide

end Straia

namespace Straia

set_option maxRecDepth 4000 in
/-- Witness for the amended C3: a concrete duplicate is dropped with no
emitted events. -/
theorem viz_duplicate_suppressed_c3_witness :
    (runStep dupParams 0
      {notebookCells := [], contextLines := [], notebookBlocks := [],
       seenViz := [vizSignature (normalizeInput (JVal.ofPairs
         [("dataframeName", .strv "df"), ("chartType", .strv "bar"),
          ("yAxes", JVal.ofList [.strv "sales"])]))],
       sandbox := sbUnit}).1 = [] := by
  have h := viz_duplicate_suppressed_c3 dupParams 0
    {notebookCells := [], contextLines := [], notebookBlocks := [],
     seenViz := [vizSignature (normalizeInput (JVal.ofPairs
       [("dataframeName", .strv "df"), ("chartType", .strv "bar"),
        ("yAxes", JVal.ofList [.strv "sales"])]))],
     sandbox := sbUnit}
    (JVal.ofPairs [("dataframeName", .strv "df"), ("chartType", .strv "bar"),
      ("yAxes", JVal.ofList [.strv "sales"])])
    rfl rfl rfl rfl (by decide) (by decide) (by decide)
  rw [h.1]

end Straia
